import Mathlib

/-!
Verification of the Redux state container in `src/app/index.jsx`.

The container has three independent slices created with `createSlice`:
a UI slice (`darkMode`, `showBanner`), a counter slice (`value`), and a
todos slice (`items`, `doneItems`).  Each reducer body is translated here
as a pure function on an explicit state value; Immer draft mutation is
rendered as functional record update.  `nanoid()` and `Date.now()` in the
`addTodo` prepare callback are environment inputs, so they appear as
explicit parameters; the contract of `nanoid` (a fresh, non-empty id) is
carried as hypotheses where a claim depends on it.
-/

set_option autoImplicit false

namespace StateWithRedux

/-- `uiSlice` state: `{ darkMode: false, showBanner: true }` initially. -/
structure UIState where
  darkMode : Bool
  showBanner : Bool
deriving DecidableEq, Repr

/-- `uiSlice.initialState`. -/
def initialUI : UIState := { darkMode := false, showBanner := true }

/-- `uiSlice.reducers.toggleDarkMode`: `state.darkMode = !state.darkMode`. -/
def toggleDarkMode (s : UIState) : UIState := { s with darkMode := !s.darkMode }

/-- `uiSlice.reducers.dismissBanner`: `state.showBanner = false`. -/
def dismissBanner (s : UIState) : UIState := { s with showBanner := false }

/-- `counterSlice` state: `{ value: 0 }` initially. -/
structure CounterState where
  value : Int
deriving DecidableEq, Repr

/-- `counterSlice.initialState`. -/
def initialCounter : CounterState := { value := 0 }

/-- `counterSlice.reducers.increment`: `state.value += 1`. -/
def increment (s : CounterState) : CounterState := { value := s.value + 1 }

/-- `counterSlice.reducers.decrement`: `state.value -= 1`. -/
def decrement (s : CounterState) : CounterState := { value := s.value - 1 }

/-- `counterSlice.reducers.reset`: `state.value = 0`. -/
def reset (_ : CounterState) : CounterState := { value := 0 }

/-- `counterSlice.reducers.addByAmount`: `state.value += action.payload`. -/
def addByAmount (n : Int) (s : CounterState) : CounterState := { value := s.value + n }

/-- A todo item as built by `addTodo.prepare`:
`{ id: nanoid(), title, done: false, createdAt: Date.now() }`. -/
structure Todo where
  id : String
  title : String
  done : Bool
  createdAt : Nat
deriving DecidableEq, Repr

/-- `todosSlice` state: `{ items: [], doneItems: [] }` initially. -/
structure TodosState where
  items : List Todo
  doneItems : List Todo
deriving DecidableEq, Repr

/-- `todosSlice.initialState`. -/
def initialTodos : TodosState := { items := [], doneItems := [] }

/-- `addTodo.prepare(title)`: builds the payload; `nanoid()` and `Date.now()`
are environment inputs passed as `id` and `now`. -/
def prepareAddTodo (id : String) (title : String) (now : Nat) : Todo :=
  { id := id, title := title, done := false, createdAt := now }

/-- `addTodo.reducer`: `state.items.unshift(action.payload)`. -/
def addTodo (payload : Todo) (s : TodosState) : TodosState :=
  { s with items := payload :: s.items }

/-- Effect of the Immer draft mutation `t.done = !t.done` inside `toggleTodo`:
`t` is the first element of `items` whose id matches, and mutating it in place
replaces that first occurrence in the list. -/
def replaceFirst (l : List Todo) (id : String) (t' : Todo) : List Todo :=
  match l with
  | [] => []
  | x :: xs => if x.id == id then t' :: xs else x :: replaceFirst xs id t'

/-- `todosSlice.reducers.toggleTodo`:
`const t = state.items.find(x => x.id === action.payload);`
then, only when `t` was found, flips `t.done` in place; if now done, pushes
`t` onto `doneItems` and filters it out of `items`; otherwise unshifts `t`
onto `items` (which still contains the mutated element) and filters it out of
`doneItems`.  Note the `find` scans `items` only. -/
def toggleTodo (id : String) (s : TodosState) : TodosState :=
  match s.items.find? (fun x => x.id == id) with
  | none => s
  | some t =>
    let t' : Todo := { t with done := !t.done }
    let items1 : List Todo := replaceFirst s.items id t'
    if t'.done then
      { items := items1.filter (fun x => x.id != id),
        doneItems := s.doneItems ++ [t'] }
    else
      { items := t' :: items1,
        doneItems := s.doneItems.filter (fun x => x.id != id) }

/-- `todosSlice.reducers.removeTodo`: filters the id out of both lists. -/
def removeTodo (id : String) (s : TodosState) : TodosState :=
  { items := s.items.filter (fun x => x.id != id),
    doneItems := s.doneItems.filter (fun x => x.id != id) }

/-- `todosSlice.reducers.clearTodos`: `items = []`, `doneItems = []`. -/
def clearTodos (_ : TodosState) : TodosState := { items := [], doneItems := [] }

/-- Actions of `uiSlice`. -/
inductive UIAction where
  | toggleDarkMode
  | dismissBanner
deriving DecidableEq, Repr

/-- Actions of `counterSlice`; `addByAmount` carries its payload. -/
inductive CounterAction where
  | increment
  | decrement
  | reset
  | addByAmount (n : Int)
deriving DecidableEq, Repr

/-- Actions of `todosSlice`; `addTodo` carries the prepared-payload inputs. -/
inductive TodoAction where
  | addTodo (id : String) (title : String) (now : Nat)
  | toggleTodo (id : String)
  | removeTodo (id : String)
  | clearTodos
deriving DecidableEq, Repr

/-- The closed set of actions dispatched through the store. -/
inductive Action where
  | ui (a : UIAction)
  | counter (a : CounterAction)
  | todos (a : TodoAction)
deriving DecidableEq, Repr

/-- `uiSlice.reducer`: handles its own action types, returns the state
unchanged on any other action (Redux reducer default case). -/
def uiReducer (s : UIState) : Action → UIState
  | .ui .toggleDarkMode => toggleDarkMode s
  | .ui .dismissBanner => dismissBanner s
  | _ => s

/-- `counterSlice.reducer`. -/
def counterReducer (s : CounterState) : Action → CounterState
  | .counter .increment => increment s
  | .counter .decrement => decrement s
  | .counter .reset => reset s
  | .counter (.addByAmount n) => addByAmount n s
  | _ => s

/-- `todosSlice.reducer`. -/
def todosReducer (s : TodosState) : Action → TodosState
  | .todos (.addTodo id title now) => addTodo (prepareAddTodo id title now) s
  | .todos (.toggleTodo id) => toggleTodo id s
  | .todos (.removeTodo id) => removeTodo id s
  | .todos .clearTodos => clearTodos s
  | _ => s

/-- The combined store state from `configureStore`. -/
structure AppState where
  ui : UIState
  counter : CounterState
  todos : TodosState
deriving DecidableEq, Repr

/-- The root reducer built by `configureStore` (`combineReducers` semantics):
every slice reducer receives every dispatched action. -/
def rootReducer (s : AppState) (a : Action) : AppState :=
  { ui := uiReducer s.ui a,
    counter := counterReducer s.counter a,
    todos := todosReducer s.todos a }

/-- The delta a single counter action contributes (`reset` carries none and is
excluded by hypothesis wherever this is used). -/
def counterDelta : CounterAction → Int
  | .increment => 1
  | .decrement => -1
  | .reset => 0
  | .addByAmount n => n

/-- Arithmetic sum of the deltas of a sequence of counter actions. -/
def sumDeltas (l : List CounterAction) : Int := (l.map counterDelta).sum

/-- Dispatching a sequence of counter actions in order. -/
def applyCounter (s : CounterState) (l : List CounterAction) : CounterState :=
  l.foldl (fun st a => counterReducer st (Action.counter a)) s

/-- Ids of the active list. -/
def itemIds (s : TodosState) : List String := s.items.map Todo.id

/-- Ids of the done list. -/
def doneIds (s : TodosState) : List String := s.doneItems.map Todo.id

/-- All ids present in either list. -/
def todoIds (s : TodosState) : List String := itemIds s ++ doneIds s

/-- One dispatch to the todos slice.  The `add` step carries the contract of
`nanoid()`: the generated id is non-empty and distinct from every id already
present. -/
inductive TodoStep : TodosState → TodosState → Prop where
  | add (s : TodosState) (id title : String) (now : Nat)
      (hfresh : id ∉ todoIds s) (hne : id ≠ "") :
      TodoStep s (addTodo (prepareAddTodo id title now) s)
  | toggle (s : TodosState) (id : String) : TodoStep s (toggleTodo id s)
  | remove (s : TodosState) (id : String) : TodoStep s (removeTodo id s)
  | clear (s : TodosState) : TodoStep s (clearTodos s)

/-- States of the todos slice reachable from `initialState` by dispatches. -/
inductive ReachableTodos : TodosState → Prop where
  | init : ReachableTodos initialTodos
  | step {s s' : TodosState} : ReachableTodos s → TodoStep s s' → ReachableTodos s'

/-- The todos invariant: no duplicate ids within either list, no id in both
lists, every active todo has `done = false` and every done todo `done = true`. -/
def TodosInv (s : TodosState) : Prop :=
  (itemIds s).Nodup ∧ (doneIds s).Nodup ∧
  (∀ i ∈ itemIds s, i ∉ doneIds s) ∧
  (∀ t ∈ s.items, t.done = false) ∧
  (∀ t ∈ s.doneItems, t.done = true)

/-! ## Helper lemmas -/

theorem replaceFirst_filter_ne (id : String) (t' : Todo) (h : t'.id = id) :
    ∀ l : List Todo,
      (replaceFirst l id t').filter (fun x => x.id != id) =
        l.filter (fun x => x.id != id)
  | [] => rfl
  | x :: xs => by
    by_cases hx : x.id = id
    · simp [replaceFirst, hx, h]
    · simp [replaceFirst, hx, replaceFirst_filter_ne id t' h xs]

theorem toggleTodo_of_find_none {s : TodosState} {id : String}
    (h : s.items.find? (fun x => x.id == id) = none) : toggleTodo id s = s := by
  unfold toggleTodo
  rw [h]

theorem toggleTodo_of_find_false {s : TodosState} {id : String} {t : Todo}
    (h : s.items.find? (fun x => x.id == id) = some t) (hd : t.done = false) :
    toggleTodo id s =
      { items := s.items.filter (fun x => x.id != id),
        doneItems := s.doneItems ++ [{ t with done := true }] } := by
  have hid : t.id = id := by
    have := List.find?_some h
    simpa using this
  unfold toggleTodo
  rw [h]
  simp only [hd, Bool.not_false, if_pos]
  rw [replaceFirst_filter_ne id { t with done := true } (by simpa using hid)]

theorem todosInv_initial : TodosInv initialTodos := by
  simp [TodosInv, initialTodos, itemIds, doneIds]

theorem todosInv_add {s : TodosState} {id title : String} {now : Nat}
    (hs : TodosInv s) (hfresh : id ∉ todoIds s) :
    TodosInv (addTodo (prepareAddTodo id title now) s) := by
  obtain ⟨h1, h2, h3, h4, h5⟩ := hs
  have hfi : id ∉ itemIds s := fun h => hfresh (by simp [todoIds, h])
  have hfd : id ∉ doneIds s := fun h => hfresh (by simp [todoIds, h])
  refine ⟨?_, ?_, ?_, ?_, ?_⟩
  · have hids : itemIds (addTodo (prepareAddTodo id title now) s) = id :: itemIds s := by
      simp [itemIds, addTodo, prepareAddTodo]
    rw [hids]
    exact List.nodup_cons.mpr ⟨hfi, h1⟩
  · simpa [doneIds, addTodo] using h2
  · intro i hi
    simp only [itemIds, addTodo, prepareAddTodo, List.map_cons, List.mem_cons] at hi
    rcases hi with rfl | hi
    · simpa [doneIds, addTodo] using hfd
    · simpa [doneIds, addTodo] using h3 i hi
  · intro t ht
    simp only [addTodo, prepareAddTodo, List.mem_cons] at ht
    rcases ht with rfl | ht
    · rfl
    · exact h4 t ht
  · intro t ht
    exact h5 t (by simpa [addTodo] using ht)

theorem todosInv_toggle {s : TodosState} (id : String) (hs : TodosInv s) :
    TodosInv (toggleTodo id s) := by
  obtain ⟨h1, h2, h3, h4, h5⟩ := hs
  cases hfind : s.items.find? (fun x => x.id == id) with
  | none => rw [toggleTodo_of_find_none hfind]; exact ⟨h1, h2, h3, h4, h5⟩
  | some t =>
    have htmem : t ∈ s.items := List.mem_of_find?_eq_some hfind
    have hid : t.id = id := by simpa using List.find?_some hfind
    have hd : t.done = false := h4 t htmem
    rw [toggleTodo_of_find_false hfind hd]
    subst hid
    have hid_in : t.id ∈ itemIds s := by
      simp only [itemIds, List.mem_map]
      exact ⟨t, htmem, rfl⟩
    have hid_nd : t.id ∉ doneIds s := h3 t.id hid_in
    refine ⟨?_, ?_, ?_, ?_, ?_⟩
    · exact ((List.filter_sublist s.items).map Todo.id).nodup h1
    · simp only [doneIds, List.map_append, List.map_cons, List.map_nil]
      rw [List.nodup_append]
      refine ⟨h2, List.nodup_singleton t.id, ?_⟩
      intro i hi hmem
      rcases List.mem_singleton.mp hmem with rfl
      exact hid_nd hi
    · intro i hi
      simp only [itemIds, List.mem_map, List.mem_filter] at hi
      obtain ⟨x, ⟨hx, hxid⟩, rfl⟩ := hi
      have hxne : x.id ≠ t.id := by simpa using hxid
      simp only [doneIds, List.map_append, List.map_cons, List.map_nil,
        List.mem_append, List.mem_singleton]
      rintro (hin | heq)
      · exact h3 x.id (List.mem_map.mpr ⟨x, hx, rfl⟩) hin
      · exact hxne heq
    · intro x hx
      exact h4 x (List.mem_of_mem_filter hx)
    · intro x hx
      rcases List.mem_append.mp hx with hx | hx
      · exact h5 x hx
      · rcases List.mem_singleton.mp hx with rfl
        rfl

theorem todosInv_remove {s : TodosState} (id : String) (hs : TodosInv s) :
    TodosInv (removeTodo id s) := by
  obtain ⟨h1, h2, h3, h4, h5⟩ := hs
  refine ⟨?_, ?_, ?_, ?_, ?_⟩
  · exact ((List.filter_sublist s.items).map Todo.id).nodup h1
  · exact ((List.filter_sublist s.doneItems).map Todo.id).nodup h2
  · intro i hi
    simp only [itemIds, removeTodo, List.mem_map, List.mem_filter] at hi
    obtain ⟨x, ⟨hx, _⟩, rfl⟩ := hi
    intro hmem
    simp only [doneIds, removeTodo, List.mem_map, List.mem_filter] at hmem
    obtain ⟨y, ⟨hy, _⟩, hyx⟩ := hmem
    exact h3 x.id (List.mem_map.mpr ⟨x, hx, rfl⟩) (List.mem_map.mpr ⟨y, hy, hyx⟩)
  · intro x hx
    exact h4 x (List.mem_of_mem_filter hx)
  · intro x hx
    exact h5 x (List.mem_of_mem_filter hx)

theorem todosInv_clear (s : TodosState) : TodosInv (clearTodos s) := by
  simp [TodosInv, clearTodos, itemIds, doneIds]

theorem reachable_todosInv {s : TodosState} (h : ReachableTodos s) : TodosInv s := by
  induction h with
  | init => exact todosInv_initial
  | step _ hstep ih =>
    cases hstep with
    | add id title now hfresh hne => exact todosInv_add ih hfresh
    | toggle id => exact todosInv_toggle id ih
    | remove id => exact todosInv_remove id ih
    | clear => exact todosInv_clear _

theorem applyCounter_cons (s : CounterState) (a : CounterAction) (l : List CounterAction) :
    applyCounter s (a :: l) = applyCounter (counterReducer s (Action.counter a)) l := rfl

theorem applyCounter_append (s : CounterState) (l1 l2 : List CounterAction) :
    applyCounter s (l1 ++ l2) = applyCounter (applyCounter s l1) l2 := by
  simp [applyCounter, List.foldl_append]

theorem applyCounter_no_reset (l : List CounterAction) :
    ∀ s : CounterState, (∀ a ∈ l, a ≠ CounterAction.reset) →
      (applyCounter s l).value = s.value + sumDeltas l := by
  induction l with
  | nil => intro s _; simp [applyCounter, sumDeltas]
  | cons a l ih =>
    intro s h
    have ha : a ≠ CounterAction.reset := h a (List.mem_cons_self a l)
    have hl : ∀ b ∈ l, b ≠ CounterAction.reset := fun b hb => h b (List.mem_cons_of_mem a hb)
    rw [applyCounter_cons, ih _ hl]
    cases a with
    | increment =>
      simp [counterReducer, increment, sumDeltas, counterDelta]
      ring
    | decrement =>
      simp [counterReducer, decrement, sumDeltas, counterDelta]
      ring
    | reset => exact absurd rfl ha
    | addByAmount n =>
      simp [counterReducer, addByAmount, sumDeltas, counterDelta]
      ring

/-! ## Claims -/

/-- C1: evaluation of the code at the failing input.  The claim says that
`toggleTodo` on an id present in `doneItems` moves that todo back to the
front of `items`; but the reducer's `find` scans `items` only, so with the
todo only in `doneItems` the dispatch is a no-op and the state is unchanged. -/
theorem toggleTodo_done_id_noop_eval :
    toggleTodo "a"
      { items := [],
        doneItems := [{ id := "a", title := "t", done := true, createdAt := 0 }] } =
      { items := [],
        doneItems := [{ id := "a", title := "t", done := true, createdAt := 0 }] } := rfl

/-- C2: in every state reachable from the initial todos state, the ids of
`items` have no duplicates, the ids of `doneItems` have no duplicates, and no
id occurs in both lists. -/
theorem reachable_ids_partition {s : TodosState} (h : ReachableTodos s) :
    (itemIds s).Nodup ∧ (doneIds s).Nodup ∧ ∀ i ∈ itemIds s, i ∉ doneIds s := by
  obtain ⟨h1, h2, h3, _, _⟩ := reachable_todosInv h
  exact ⟨h1, h2, h3⟩

theorem reachable_ids_partition_witness :
    (itemIds (addTodo (prepareAddTodo "a" "milk" 5) initialTodos)).Nodup ∧
    (doneIds (addTodo (prepareAddTodo "a" "milk" 5) initialTodos)).Nodup ∧
    "a" ∉ doneIds (addTodo (prepareAddTodo "a" "milk" 5) initialTodos) := by
  have h := reachable_ids_partition
    (ReachableTodos.step ReachableTodos.init
      (TodoStep.add initialTodos "a" "milk" 5 (by decide) (by decide)))
  exact ⟨h.1, h.2.1, h.2.2 "a" (by decide)⟩

/-- C3 (counterexample): the claim quantifies over every state and every id
present in `items`.  On a state whose active list holds a todo with
`done = true` (unreachable, but a state), `toggleTodo` takes the else branch:
the todo's `done` becomes `false`, nothing is appended to `doneItems`, and the
id is still (twice) in `items` — refuting the claim as stated. -/
theorem toggleTodo_done_in_items_counterexample :
    "a" ∈ itemIds { items := [{ id := "a", title := "t", done := true, createdAt := 0 }],
                    doneItems := [] } ∧
    (toggleTodo "a" { items := [{ id := "a", title := "t", done := true, createdAt := 0 }],
                      doneItems := [] }).doneItems = [] ∧
    (toggleTodo "a" { items := [{ id := "a", title := "t", done := true, createdAt := 0 }],
                      doneItems := [] }).items =
      [{ id := "a", title := "t", done := false, createdAt := 0 },
       { id := "a", title := "t", done := false, createdAt := 0 }] := by
  refine ⟨by decide, rfl, rfl⟩

/-- C3 (amended): for every state and id whose first match in `items` has
`done = false` (which the reachable-state invariant guarantees for every
present id), `toggleTodo` flips that todo's `done` to `true`, appends it to
the back of `doneItems`, and removes the id from `items`. -/
theorem toggleTodo_active_moves_to_done (s : TodosState) (id : String) (t : Todo)
    (hfind : s.items.find? (fun x => x.id == id) = some t) (hd : t.done = false) :
    (toggleTodo id s).items = s.items.filter (fun x => x.id != id) ∧
    (toggleTodo id s).doneItems = s.doneItems ++ [{ t with done := true }] := by
  rw [toggleTodo_of_find_false hfind hd]
  exact ⟨rfl, rfl⟩

theorem toggleTodo_active_moves_to_done_witness :
    (toggleTodo "a" { items := [{ id := "a", title := "t", done := false, createdAt := 0 }],
                      doneItems := [] }).items = [] ∧
    (toggleTodo "a" { items := [{ id := "a", title := "t", done := false, createdAt := 0 }],
                      doneItems := [] }).doneItems =
      [{ id := "a", title := "t", done := true, createdAt := 0 }] := by
  have h := toggleTodo_active_moves_to_done
    { items := [{ id := "a", title := "t", done := false, createdAt := 0 }], doneItems := [] }
    "a" { id := "a", title := "t", done := false, createdAt := 0 } rfl rfl
  simpa using h

/-- C4: for every starting value and sequence of counter actions, the final
`value` is the arithmetic sum of the deltas since the later of the start or
the most recent `reset`; a `reset` zeroes the value at the point it occurs. -/
theorem counter_value_eq_sum_of_deltas (start : Int) :
    (∀ l : List CounterAction, (∀ a ∈ l, a ≠ CounterAction.reset) →
      (applyCounter { value := start } l).value = start + sumDeltas l) ∧
    (∀ l1 l2 : List CounterAction, (∀ a ∈ l2, a ≠ CounterAction.reset) →
      (applyCounter { value := start } (l1 ++ CounterAction.reset :: l2)).value =
        sumDeltas l2) := by
  constructor
  · intro l h
    exact applyCounter_no_reset l _ h
  · intro l1 l2 h
    rw [applyCounter_append, applyCounter_cons]
    have hreset : counterReducer (applyCounter { value := start } l1)
        (Action.counter CounterAction.reset) = { value := 0 } := rfl
    rw [hreset, applyCounter_no_reset l2 _ h]
    simp

theorem counter_value_eq_sum_of_deltas_witness :
    (applyCounter { value := 2 }
      [CounterAction.increment, CounterAction.addByAmount 5]).value =
      2 + sumDeltas [CounterAction.increment, CounterAction.addByAmount 5] ∧
    (applyCounter { value := 2 }
      ([CounterAction.increment] ++ CounterAction.reset :: [CounterAction.decrement])).value =
      sumDeltas [CounterAction.decrement] := by
  exact ⟨(counter_value_eq_sum_of_deltas 2).1 _ (by decide),
         (counter_value_eq_sum_of_deltas 2).2 _ _ (by decide)⟩

/-- C5: `addTodo` with a fresh non-empty id (the contract of `nanoid()`)
inserts exactly one new todo at the front of `items` with the given title,
`done = false` and `createdAt` equal to the current time, leaves the rest of
`items` and all of `doneItems` unchanged, and the new id is non-empty and
distinct from every id already present. -/
theorem addTodo_inserts_fresh_at_front (s : TodosState) (id title : String) (now : Nat)
    (hfresh : id ∉ todoIds s) (hne : id ≠ "") :
    (addTodo (prepareAddTodo id title now) s).items =
      { id := id, title := title, done := false, createdAt := now } :: s.items ∧
    (addTodo (prepareAddTodo id title now) s).doneItems = s.doneItems ∧
    id ≠ "" ∧ id ∉ itemIds s ∧ id ∉ doneIds s := by
  simp only [todoIds, List.mem_append] at hfresh
  exact ⟨rfl, rfl, hne, fun h => hfresh (Or.inl h), fun h => hfresh (Or.inr h)⟩

theorem addTodo_inserts_fresh_at_front_witness :
    (addTodo (prepareAddTodo "a" "milk" 5)
      { items := [{ id := "b", title := "x", done := false, createdAt := 1 }],
        doneItems := [] }).items =
      { id := "a", title := "milk", done := false, createdAt := 5 } ::
        [{ id := "b", title := "x", done := false, createdAt := 1 }] ∧
    (addTodo (prepareAddTodo "a" "milk" 5)
      { items := [{ id := "b", title := "x", done := false, createdAt := 1 }],
        doneItems := [] }).doneItems = [] ∧
    "a" ≠ "" ∧
    "a" ∉ itemIds { items := [{ id := "b", title := "x", done := false, createdAt := 1 }],
                    doneItems := [] } ∧
    "a" ∉ doneIds { items := [{ id := "b", title := "x", done := false, createdAt := 1 }],
                    doneItems := [] } :=
  addTodo_inserts_fresh_at_front
    { items := [{ id := "b", title := "x", done := false, createdAt := 1 }], doneItems := [] }
    "a" "milk" 5 (by decide) (by decide)

/-- C6: `toggleTodo` and `removeTodo` on an id present in neither list leave
the todos state unchanged (both are total no-ops on absent ids). -/
theorem absent_id_toggle_remove_noop (s : TodosState) (id : String)
    (h1 : id ∉ itemIds s) (h2 : id ∉ doneIds s) :
    toggleTodo id s = s ∧ removeTodo id s = s := by
  have hfind : s.items.find? (fun x => x.id == id) = none := by
    rw [List.find?_eq_none]
    intro x hx
    simp only [beq_iff_eq]
    intro hxe
    exact h1 (List.mem_map.mpr ⟨x, hx, hxe⟩)
  have hit : s.items.filter (fun x => x.id != id) = s.items := by
    rw [List.filter_eq_self]
    intro x hx
    simp only [bne_iff_ne, ne_eq]
    intro hxe
    exact h1 (List.mem_map.mpr ⟨x, hx, hxe⟩)
  have hdt : s.doneItems.filter (fun x => x.id != id) = s.doneItems := by
    rw [List.filter_eq_self]
    intro x hx
    simp only [bne_iff_ne, ne_eq]
    intro hxe
    exact h2 (List.mem_map.mpr ⟨x, hx, hxe⟩)
  refine ⟨toggleTodo_of_find_none hfind, ?_⟩
  unfold removeTodo
  rw [hit, hdt]

theorem absent_id_toggle_remove_noop_witness :
    toggleTodo "z" { items := [{ id := "b", title := "x", done := false, createdAt := 1 }],
                     doneItems := [{ id := "c", title := "y", done := true, createdAt := 2 }] } =
      { items := [{ id := "b", title := "x", done := false, createdAt := 1 }],
        doneItems := [{ id := "c", title := "y", done := true, createdAt := 2 }] } ∧
    removeTodo "z" { items := [{ id := "b", title := "x", done := false, createdAt := 1 }],
                     doneItems := [{ id := "c", title := "y", done := true, createdAt := 2 }] } =
      { items := [{ id := "b", title := "x", done := false, createdAt := 1 }],
        doneItems := [{ id := "c", title := "y", done := true, createdAt := 2 }] } :=
  absent_id_toggle_remove_noop
    { items := [{ id := "b", title := "x", done := false, createdAt := 1 }],
      doneItems := [{ id := "c", title := "y", done := true, createdAt := 2 }] }
    "z" (by decide) (by decide)

/-- C7: `clearTodos` yields empty `items` and `doneItems` from any state. -/
theorem clearTodos_empties (s : TodosState) :
    (clearTodos s).items = [] ∧ (clearTodos s).doneItems = [] := ⟨rfl, rfl⟩

/-- C8: `toggleDarkMode` is an involution on `darkMode`: applied twice it
restores the original value; applied once it negates `darkMode` and leaves
`showBanner` unchanged. -/
theorem toggleDarkMode_involution (s : UIState) :
    (toggleDarkMode (toggleDarkMode s)).darkMode = s.darkMode ∧
    (toggleDarkMode s).darkMode = !s.darkMode ∧
    (toggleDarkMode s).showBanner = s.showBanner := by
  refine ⟨?_, rfl, rfl⟩
  simp [toggleDarkMode]

/-- C9: the three partitions are independent: UI actions leave the counter
and todos slices unchanged, counter actions leave the UI and todos slices
unchanged, and todos actions leave the UI and counter slices unchanged. -/
theorem partitions_independent (s : AppState) :
    (∀ a : UIAction, (rootReducer s (Action.ui a)).counter = s.counter ∧
      (rootReducer s (Action.ui a)).todos = s.todos) ∧
    (∀ a : CounterAction, (rootReducer s (Action.counter a)).ui = s.ui ∧
      (rootReducer s (Action.counter a)).todos = s.todos) ∧
    (∀ a : TodoAction, (rootReducer s (Action.todos a)).ui = s.ui ∧
      (rootReducer s (Action.todos a)).counter = s.counter) := by
  refine ⟨fun a => ⟨?_, ?_⟩, fun a => ⟨?_, ?_⟩, fun a => ⟨?_, ?_⟩⟩ <;> cases a <;> rfl

/-- C10: in every reachable todos state, every todo in `items` has
`done = false` and every todo in `doneItems` has `done = true`; consequently
whenever `toggleTodo`'s `find` succeeds the flipped flag is `true`, so the
branch that moves a found item back to the front of `items` never runs. -/
theorem reachable_done_flags {s : TodosState} (h : ReachableTodos s) :
    (∀ t ∈ s.items, t.done = false) ∧ (∀ t ∈ s.doneItems, t.done = true) ∧
    (∀ (id : String) (t : Todo), s.items.find? (fun x => x.id == id) = some t →
      ({ t with done := !t.done } : Todo).done = true) := by
  obtain ⟨_, _, _, h4, h5⟩ := reachable_todosInv h
  refine ⟨h4, h5, ?_⟩
  intro id t hfind
  have hd : t.done = false := h4 t (List.mem_of_find?_eq_some hfind)
  simp [hd]

theorem reachable_done_flags_witness :
    ({ id := "a", title := "milk", done := false, createdAt := 5 } : Todo).done = false ∧
    ({ id := "a", title := "milk", done := true, createdAt := 5 } : Todo).done = true := by
  have h1 := reachable_done_flags
    (ReachableTodos.step ReachableTodos.init
      (TodoStep.add initialTodos "a" "milk" 5 (by decide) (by decide)))
  have h2 := reachable_done_flags
    (ReachableTodos.step
      (ReachableTodos.step ReachableTodos.init
        (TodoStep.add initialTodos "a" "milk" 5 (by decide) (by decide)))
      (TodoStep.toggle (addTodo (prepareAddTodo "a" "milk" 5) initialTodos) "a"))
  exact ⟨h1.1 _ (by decide), h2.2.1 _ (by decide)⟩

end StateWithRedux
